import Mathlib

/- Shallow embedding of the self-healing build loop of the
   mendix-widget-generator repository (src/vscode-extension/src/buildLoop.ts)
   and of its adaptive fix-pattern store, the "nucleus"
   (class DynamicPatterns, src/unnamed/part_004).

   Modelling conventions:
   * JavaScript numbers are modelled as rationals (the confidence nudges
     0.05 / 0.1 and the score arithmetic are exact in this model);
   * JavaScript strings are Lean Strings, manipulated through their
     character lists; toLowerCase is modelled character-wise (faithful on
     the ASCII texts the program matches against);
   * the VS Code cancellation token, the generator/executor, the fix
     strategies and the file system are modelled as explicit environments
     (functions from attempt number to results, lists of files), and the
     observable effects of one BuildLoop.execute run (executor invocations,
     fix-strategy consultations, diagnostics streamed to the progress
     callback) are returned as explicit counters and logs;
   * timestamps (new Date().toISOString(), Date.now()) are an abstract
     Nat parameter "now". -/

/-- A single-quote character (U+0027), used to assemble the string literals
of the source without embedding raw quote characters in this file. -/
def apos : String := String.mk [Char.ofNat 39]

/-- JavaScript `haystack.includes(needle)`: exact substring containment
(true for the empty needle, as in JavaScript). -/
def jsIncludes (haystack needle : String) : Bool :=
  decide (needle.data <:+: haystack.data)

/-- JavaScript `toLowerCase`, modelled character-wise (faithful on ASCII). -/
def jsToLower (s : String) : String := String.mk (s.data.map Char.toLower)

/-- JavaScript `s.endsWith(t)`. -/
def jsEndsWith (s t : String) : Bool := t.data.isSuffixOf s.data

/-- JavaScript `s.substring(start, stop)` for `start <= stop`. -/
def jsSubstring (s : String) (start stop : Nat) : String :=
  String.mk ((s.data.drop start).take (stop - start))

/- ===================================================================
   Data model of the pattern store (interface ErrorFixPattern,
   src/unnamed/part_004 lines 25-42).
   =================================================================== -/

/-- The `fix.type` discriminator of an ErrorFixPattern:
'file-edit' | 'config-change' | 'dependency-add' | 'manual'. -/
inductive FixType
  | fileEdit
  | configChange
  | dependencyAdd
  | manual
  deriving DecidableEq

/-- The `source` field: 'builtin' | 'learned' | 'user'. -/
inductive PatternSource
  | builtin
  | learned
  | user
  deriving DecidableEq

/-- The nested `fix` object of an ErrorFixPattern. -/
structure FixSpec where
  type : FixType
  file : Option String
  search : Option String
  replace : Option String
  description : String
  commands : Option (List String)
  deriving DecidableEq

/-- One stored error-fix pattern (interface ErrorFixPattern). `lastUsed`
timestamps are abstracted to Nat. -/
structure ErrorFixPattern where
  id : String
  errorPattern : String
  errorKeywords : List String
  fix : FixSpec
  confidence : ℚ
  successCount : Nat
  failureCount : Nat
  lastUsed : Nat
  source : PatternSource
  deriving DecidableEq

/-- The `fixDetails : Partial<ErrorFixPattern['fix']>` argument of
learnErrorFix: every field possibly absent. -/
structure FixSpecPartial where
  type : Option FixType
  file : Option String
  search : Option String
  replace : Option String
  commands : Option (List String)
  deriving DecidableEq

/- ===================================================================
   DynamicPatterns helper methods (src/unnamed/part_004 lines 671-763).
   =================================================================== -/

/-- The stop-word set of DynamicPatterns.extractKeywords. -/
def stopWords : List String :=
  ["the", "a", "an", "is", "are", "was", "were", "be", "been", "being",
   "have", "has", "had", "do", "does", "did", "will", "would", "could",
   "should", "may", "might", "must", "shall", "can", "need", "to", "of",
   "in", "for", "on", "with", "at", "by", "from", "as", "into", "through",
   "during", "before", "after", "above", "below", "between", "under",
   "again", "further", "then", "once", "and", "but", "or", "nor", "so",
   "yet", "both", "either", "neither", "not", "only", "own", "same",
   "than", "too", "very", "just"]

/-- Characters that survive extractKeywords' replace of `[^a-z0-9\s]` by a
space (after lowering): lowercase ASCII letters and digits.  Everything
else acts as a separator for the subsequent split on whitespace runs. -/
def isTokenChar (c : Char) : Bool :=
  (Char.ofNat 97 ≤ c && c ≤ Char.ofNat 122) || (Char.ofNat 48 ≤ c && c ≤ Char.ofNat 57)

/-- DynamicPatterns.extractKeywords: lowercase, keep maximal runs of
`[a-z0-9]` (all other characters separate tokens), drop words of length
at most 2 and stop words, keep the first 10. -/
def extractKeywords (text : String) : List String :=
  ((((text.data.map Char.toLower).splitOnP (fun c => !(isTokenChar c))).map
      (fun l => String.mk l)).filter
    (fun w => decide (2 < w.length) && !(stopWords.contains w))).take 10

/-- DynamicPatterns.similarity: intersection-over-max-size of the two
lowercased keyword sets; 0 if either input array is empty. -/
def similarity (arr1 arr2 : List String) : ℚ :=
  if arr1 = [] ∨ arr2 = [] then 0
  else
    let set1 := (arr1.map jsToLower).dedup
    let set2 := (arr2.map jsToLower).dedup
    let inter := set1.countP (fun s => set2.contains s)
    (inter : ℚ) / ((max set1.length set2.length : ℕ) : ℚ)

/- ===================================================================
   DynamicPatterns scoring and updating.
   =================================================================== -/

/-- The raw lexical score getMatchingErrorFixes computes before the
confidence boost: +10 for exact substring containment of the pattern's
errorPattern in the diagnostic text, +2 per (case-insensitive) keyword
hit. -/
def rawScore (errorText : String) (p : ErrorFixPattern) : ℚ :=
  (if jsIncludes errorText p.errorPattern then (10 : ℚ) else 0)
    + 2 * (p.errorKeywords.countP
        (fun k => jsIncludes (jsToLower errorText) (jsToLower k)) : ℚ)

/-- The final score: raw score multiplied by confidence and by
`1 + successCount / 10`. -/
def finalScore (errorText : String) (p : ErrorFixPattern) : ℚ :=
  rawScore errorText p * p.confidence * (1 + (p.successCount : ℚ) / 10)

/-- Stable insertion of a scored element into a descending list: the new
element goes in front of the first element whose score is at most its own.
Models the (stable, per ECMA-262) `Array.prototype.sort` with comparator
`(a, b) => b.score - a.score`. -/
def insertScored {α : Type} (x : α × ℚ) : List (α × ℚ) → List (α × ℚ)
  | [] => [x]
  | y :: ys => if y.2 ≤ x.2 then x :: y :: ys else y :: insertScored x ys

/-- Stable descending sort by score. -/
def sortScoredDesc {α : Type} : List (α × ℚ) → List (α × ℚ)
  | [] => []
  | x :: xs => insertScored x (sortScoredDesc xs)

/-- DynamicPatterns.getMatchingErrorFixes (src/unnamed/part_004 lines
369-399): collect every pattern whose raw score is positive, paired with
its final score, sort descending by score (stably), return the patterns. -/
def getMatchingErrorFixes (errorText : String)
    (patterns : List ErrorFixPattern) : List ErrorFixPattern :=
  let scored := (patterns.filter (fun p => decide (0 < rawScore errorText p))).map
      (fun p => (p, finalScore errorText p))
  (sortScoredDesc scored).map Prod.fst

/-- The confidence / counter update shared by recordFixUsage and the
existing-pattern branch of learnErrorFix: on success `+0.05` capped at 1
and successCount++, on failure `-0.1` floored at 0.1 and failureCount++;
lastUsed is refreshed. -/
def nudge (success : Bool) (now : Nat) (p : ErrorFixPattern) : ErrorFixPattern :=
  if success then
    { p with successCount := p.successCount + 1,
             confidence := min 1 (p.confidence + 0.05),
             lastUsed := now }
  else
    { p with failureCount := p.failureCount + 1,
             confidence := max 0.1 (p.confidence - 0.1),
             lastUsed := now }

/-- Update the first element satisfying the predicate (JavaScript
`array.find(...)` followed by in-place mutation of the found object). -/
def updateFirst {α : Type} (pred : α → Bool) (f : α → α) : List α → List α
  | [] => []
  | x :: xs => if pred x then f x :: xs else x :: updateFirst pred f xs

/-- DynamicPatterns.recordFixUsage (src/unnamed/part_004 lines 621-635):
find the pattern by id and apply the confidence nudge; if no pattern has
the id, the store is unchanged. -/
def recordFixUsage (store : List ErrorFixPattern) (patternId : String)
    (success : Bool) (now : Nat) : List ErrorFixPattern :=
  updateFirst (fun p => p.id == patternId) (nudge success now) store

/-- The matching predicate of learnErrorFix: identical error signature, or
keyword-set similarity above 0.7. -/
def learnPred (errorText : String) (keywords : List String)
    (p : ErrorFixPattern) : Bool :=
  p.errorPattern == errorText || decide ((0.7 : ℚ) < similarity p.errorKeywords keywords)

/-- The freshly synthesized pattern appended by learnErrorFix on a
successful novel fix. -/
def newLearnedPattern (errorText fixDescription : String)
    (fixDetails : FixSpecPartial) (keywords : List String) (now : Nat) :
    ErrorFixPattern :=
  { id := "learned-" ++ toString now,
    errorPattern := jsSubstring errorText 0 200,
    errorKeywords := keywords,
    fix := { type := fixDetails.type.getD FixType.manual,
             file := fixDetails.file,
             search := fixDetails.search,
             replace := fixDetails.replace,
             description := fixDescription,
             commands := fixDetails.commands },
    confidence := 0.7,
    successCount := 1,
    failureCount := 0,
    lastUsed := now,
    source := PatternSource.learned }

/-- DynamicPatterns.learnErrorFix (src/unnamed/part_004 lines 460-510):
if a similar pattern exists, nudge it; otherwise append a new pattern only
when `success` is true. -/
def learnErrorFix (store : List ErrorFixPattern) (errorText fixDescription : String)
    (fixDetails : FixSpecPartial) (success : Bool) (now : Nat) :
    List ErrorFixPattern :=
  let keywords := extractKeywords errorText
  if (store.find? (learnPred errorText keywords)).isSome then
    updateFirst (learnPred errorText keywords) (nudge success now) store
  else if success then
    store ++ [newLearnedPattern errorText fixDescription fixDetails keywords now]
  else
    store

/- ===================================================================
   The nucleus file-edit action on a single file's content
   (BuildLoop.applyNucleusFix, src/vscode-extension/src/buildLoop.ts
   lines 544-598).
   =================================================================== -/

/-- JavaScript `content.replace(search, repl)`: replace the first (leftmost)
occurrence; no occurrence means no change.  (The `$`-pattern substitutions
of JavaScript replacement strings are not modelled; the program only passes
plain text.) -/
def replaceFirstL (search repl : List Char) : List Char → List Char
  | [] => if search = [] then repl else []
  | c :: rest =>
    if search.isPrefixOf (c :: rest) then
      repl ++ List.drop search.length (c :: rest)
    else
      c :: replaceFirstL search repl rest

/-- The content transformation of the nucleus `file-edit` action on one
file: empty search and truthy (non-empty) replace means prepend-if-absent;
non-empty search means replace-first-if-present; otherwise no-op. -/
def applyFileEditContent (searchText replaceText content : String) : String :=
  if searchText = "" ∧ replaceText ≠ "" then
    if jsIncludes content replaceText then content
    else replaceText ++ content
  else if searchText ≠ "" ∧ jsIncludes content searchText then
    String.mk (replaceFirstL searchText.data replaceText.data content.data)
  else content

/-- Leftmost non-overlapping occurrence counting, fuelled so that it is
structural (the fuel is the haystack length, always sufficient). -/
def countOccAux (needle : List Char) : Nat → List Char → Nat
  | 0, _ => 0
  | _ + 1, [] => 0
  | fuel + 1, c :: rest =>
    if needle ≠ [] ∧ needle.isPrefixOf (c :: rest) then
      1 + countOccAux needle fuel (List.drop (needle.length - 1) rest)
    else
      countOccAux needle fuel rest

/-- How many times `needle` appears in `haystack` (leftmost,
non-overlapping). -/
def countOcc (haystack needle : String) : Nat :=
  countOccAux needle.data haystack.data.length haystack.data

/- ===================================================================
   BuildLoop.execute (src/vscode-extension/src/buildLoop.ts lines 57-156).
   =================================================================== -/

/-- The generator/executor verdict for one attempt (GenerationResult,
restricted to the fields the loop inspects). -/
structure GenResult where
  success : Bool
  errors : List String
  deriving DecidableEq

/-- The verdict of one analyzeAndFix consultation of the fix-strategy
chain. -/
structure FixOutcome where
  applied : Bool
  description : String
  deriving DecidableEq

/-- The fields of BuildLoopResult the claims are about. -/
structure BuildLoopResult where
  success : Bool
  errors : List String
  attempts : Nat
  fixesApplied : List String
  deriving DecidableEq

/-- The collaborators of one execute run: the executor's verdict, the fix
chain's verdict and the cancellation token's state, each per attempt
number (1-based). -/
structure LoopEnv where
  executor : Nat → GenResult
  fixer : Nat → FixOutcome
  cancelRequested : Nat → Bool

/-- The returned BuildLoopResult together with the observable effects of
the run: how often the executor and the fix chain were invoked, and the
diagnostics (`result.errors` of each failed attempt) streamed to the
progress callback. -/
structure RunStats where
  result : BuildLoopResult
  execCalls : Nat
  fixerCalls : Nat
  diagLog : List (List String)

/-- The exhaustion return of execute (lines 148-156): a single summary
line, the attempt count and the fix history. -/
def exhaustedResult (attempt : Nat) (fixesApplied : List String) : BuildLoopResult :=
  { success := false,
    errors := ["Build failed after " ++ toString attempt ++ " attempts"],
    attempts := attempt,
    fixesApplied := fixesApplied }

/-- The cancellation return of execute (lines 70-78). -/
def cancelledResult (attempt : Nat) (fixesApplied : List String) : BuildLoopResult :=
  { success := false,
    errors := ["Operation cancelled"],
    attempts := attempt,
    fixesApplied := fixesApplied }

/-- The while-loop of execute.  `remaining` is `maxAttempts - attempt`; at
each iteration the attempt counter is incremented, then cancellation is
checked, then the executor runs; on failure the diagnostics are streamed,
and (only when attempts remain) the fix chain is consulted once — an
applied fix loops, an unapplied fix breaks to the exhaustion return. -/
def executeAux (env : LoopEnv) :
    (remaining attempt : Nat) → (fixesApplied : List String) →
    (execCalls fixerCalls : Nat) → (diagLog : List (List String)) → RunStats
  | 0, attempt, fixes, ec, fc, dl => ⟨exhaustedResult attempt fixes, ec, fc, dl⟩
  | remaining + 1, attempt, fixes, ec, fc, dl =>
    if env.cancelRequested (attempt + 1) then
      ⟨cancelledResult (attempt + 1) fixes, ec, fc, dl⟩
    else if (env.executor (attempt + 1)).success then
      ⟨⟨true, (env.executor (attempt + 1)).errors, attempt + 1, fixes⟩,
        ec + 1, fc, dl⟩
    else if 0 < remaining then
      if (env.fixer (attempt + 1)).applied then
        executeAux env remaining (attempt + 1)
          (fixes ++ [(env.fixer (attempt + 1)).description]) (ec + 1) (fc + 1)
          (dl ++ [(env.executor (attempt + 1)).errors])
      else
        ⟨exhaustedResult (attempt + 1) fixes, ec + 1, fc + 1,
          dl ++ [(env.executor (attempt + 1)).errors]⟩
    else
      ⟨exhaustedResult (attempt + 1) fixes, ec + 1, fc,
        dl ++ [(env.executor (attempt + 1)).errors]⟩

/-- The descriptions of the fixes applied at attempts
`attempt + 1, ..., attempt + n` (in order). -/
def fixerDescs (env : LoopEnv) (attempt : Nat) : Nat → List String
  | 0 => []
  | n + 1 => (env.fixer (attempt + 1)).description :: fixerDescs env (attempt + 1) n

/-- The diagnostics produced by the executor at attempts
`attempt + 1, ..., attempt + n` (in order). -/
def execErrs (env : LoopEnv) (attempt : Nat) : Nat → List (List String)
  | 0 => []
  | n + 1 => (env.executor (attempt + 1)).errors :: execErrs env (attempt + 1) n

/-- `options.maxAttempts || 3`: any falsy value (absent option, or 0)
yields the default 3. -/
def effectiveMaxAttempts : Option Nat → Nat
  | none => 3
  | some n => if n = 0 then 3 else n

/-- BuildLoop.execute. -/
def execute (env : LoopEnv) (maxAttemptsOpt : Option Nat) : RunStats :=
  executeAux env (effectiveMaxAttempts maxAttemptsOpt) 0 [] 0 0 []

/- ===================================================================
   BuildLoop.tryPatternFix (src/vscode-extension/src/buildLoop.ts lines
   294-361): the fixed heuristic strategy.
   =================================================================== -/

/-- The literal "'react' must be in scope". -/
def reactMustBeInScope : String := apos ++ "react" ++ apos ++ " must be in scope"

/-- The literal "cannot find name 'react'". -/
def cannotFindNameReact : String := "cannot find name " ++ apos ++ "react" ++ apos

/-- The literal "object is possibly 'null'". -/
def objectPossiblyNull : String := "object is possibly " ++ apos ++ "null" ++ apos

/-- The literal "object is possibly 'undefined'". -/
def objectPossiblyUndefined : String :=
  "object is possibly " ++ apos ++ "undefined" ++ apos

/-- The React import line prepended by the heuristic strategy. -/
def reactImportLine : String :=
  "import * as React from " ++ apos ++ "react" ++ apos ++ ";\n"

/-- A quote character as matched by the `['"]` character class. -/
def quoteChar (c : Char) : Bool := c = Char.ofNat 39 || c = '"'

/-- After the literal "Cannot find module ", the regex tail
`['"]([^'"]+)['"]`: a quote, a non-empty run of non-quote characters (the
capture), a closing quote. -/
def matchQuotedAfter : List Char → Option (List Char)
  | [] => none
  | c :: rest =>
    if quoteChar c then
      match rest.dropWhile (fun d => !(quoteChar d)) with
      | d :: _ =>
        let m := rest.takeWhile (fun d => !(quoteChar d))
        if !(m.isEmpty) && quoteChar d then some m else none
      | [] => none
    else none

/-- The literal part of the module-name regex. -/
def cannotFindModuleLit : String := "Cannot find module "

/-- Leftmost match of `/Cannot find module ['"]([^'"]+)['"]/` against the
(case-sensitive) error text, returning the captured module name. -/
def findModuleMatch : List Char → Option (List Char)
  | [] => none
  | c :: rest =>
    if cannotFindModuleLit.data.isPrefixOf (c :: rest) then
      match matchQuotedAfter (List.drop cannotFindModuleLit.data.length (c :: rest)) with
      | some m => some m
      | none => findModuleMatch rest
    else findModuleMatch rest

/-- Does the captured module name start with '.' or '/' (a relative or
absolute path, excluded from npm install)? -/
def startsWithDotOrSlash : List Char → Bool
  | [] => false
  | c :: _ => c = '.' || c = '/'

/-- The missing-dependencies branch of tryPatternFix (lines 301-315): if it
returns some module name, the branch returned early with an install fix;
`npmInstallOk` abstracts whether `npm install <module>` (execSync) threw. -/
def moduleFix (errorText : String) (npmInstallOk : String → Bool) : Option String :=
  if jsIncludes (jsToLower errorText) "cannot find module"
      || jsIncludes (jsToLower errorText) "module not found" then
    match findModuleMatch errorText.data with
    | some m =>
      if !(startsWithDotOrSlash m) then
        if npmInstallOk (String.mk m) then some (String.mk m) else none
      else none
    | none => none
  else none

/-- The file-system and process environment visible to tryPatternFix. -/
structure PatternFixEnv where
  npmInstallOk : String → Bool
  srcExists : Bool
  srcFiles : List (String × String)
  pkgJsonExists : Bool

/-- The outcome of tryPatternFix together with the resulting src files and
whether package.json was rewritten. -/
structure PatternFixState where
  outcome : FixOutcome
  srcFiles : List (String × String)
  pkgWritten : Bool

/-- The React-import branch body (lines 323-334): prepend the React import
to every `.tsx` file not already importing React. -/
def addReactImports (files : List (String × String)) : List (String × String) :=
  files.map (fun f =>
    if jsEndsWith f.1 ".tsx" && !(jsIncludes f.2 "import React")
        && !(jsIncludes f.2 "import * as React") then
      (f.1, reactImportLine ++ f.2)
    else f)

/-- BuildLoop.tryPatternFix: the four heuristic branches in source order.
A branch whose guard holds but whose inner existence check fails falls
through to the next branch, as in the source. -/
def tryPatternFix (errorText : String) (env : PatternFixEnv) : PatternFixState :=
  let errorLower := jsToLower errorText
  match moduleFix errorText env.npmInstallOk with
  | some m => ⟨⟨true, "Installed missing module: " ++ m⟩, env.srcFiles, false⟩
  | none =>
    if (jsIncludes errorLower reactMustBeInScope
        || jsIncludes errorLower cannotFindNameReact) && env.srcExists then
      ⟨⟨true, "Added missing React imports"⟩, addReactImports env.srcFiles, false⟩
    else if jsIncludes errorLower objectPossiblyNull
        || jsIncludes errorLower objectPossiblyUndefined then
      ⟨⟨false, "Null safety issue requires manual review"⟩, env.srcFiles, false⟩
    else if jsIncludes errorLower "missing script: build" && env.pkgJsonExists then
      ⟨⟨true, "Added missing build scripts to package.json"⟩, env.srcFiles, true⟩
    else
      ⟨⟨false, ""⟩, env.srcFiles, false⟩

/- ===================================================================
   Specification predicates and concrete instances used by the
   verification below.
   =================================================================== -/

/-- What execute guarantees once cancellation is requested at (or before)
the top of attempt `k`: the executor and the fix chain are never invoked
at or after that attempt, no attempt beyond `k` is started, and if the run
reaches attempt `k` it returns the cancelled outcome with the fix history
accumulated in the earlier attempts only. -/
def cancelSpec (k : Nat) (st : RunStats) : Prop :=
  st.execCalls ≤ k - 1 ∧ st.fixerCalls ≤ k - 1 ∧ st.result.attempts ≤ k ∧
    (st.result.attempts = k →
      st.result.success = false ∧
      st.result.errors = ["Operation cancelled"] ∧
      st.execCalls = k - 1 ∧ st.fixerCalls = k - 1 ∧
      st.result.fixesApplied.length = k - 1)

/-- An environment whose executor always fails (with diagnostic "diag-0")
and whose fix chain always applies a fix (described "fix-0"), never
cancelled. -/
def envAlwaysFail : LoopEnv :=
  { executor := fun _ => ⟨false, ["diag-0"]⟩,
    fixer := fun _ => ⟨true, "fix-0"⟩,
    cancelRequested := fun _ => false }

/-- An environment cancelled from attempt 2 on. -/
def envCancelAt2 : LoopEnv :=
  { executor := fun _ => ⟨false, ["err"]⟩,
    fixer := fun _ => ⟨true, "fx"⟩,
    cancelRequested := fun n => decide (2 ≤ n) }

/-- A concrete stored pattern used to exercise recordFixUsage. -/
def patBoom : ErrorFixPattern :=
  { id := "p1",
    errorPattern := "boom",
    errorKeywords := ["boom"],
    fix := { type := FixType.manual, file := none, search := none,
             replace := none, description := "d", commands := none },
    confidence := 0.5,
    successCount := 0,
    failureCount := 0,
    lastUsed := 0,
    source := PatternSource.builtin }

/-- A concrete stored pattern used to exercise getMatchingErrorFixes. -/
def patScore : ErrorFixPattern :=
  { id := "p2",
    errorPattern := "boom",
    errorKeywords := ["boom", "bang"],
    fix := { type := FixType.manual, file := none, search := none,
             replace := none, description := "d2", commands := none },
    confidence := 1,
    successCount := 2,
    failureCount := 0,
    lastUsed := 0,
    source := PatternSource.builtin }

/-- An environment in which npm install always succeeds, src exists and is
empty, and package.json is absent. -/
def envNpmOk : PatternFixEnv :=
  { npmInstallOk := fun _ => true,
    srcExists := true,
    srcFiles := [],
    pkgJsonExists := false }

/-- An environment with one .tsx file that already imports React. -/
def envTsxWithReact : PatternFixEnv :=
  { npmInstallOk := fun _ => false,
    srcExists := true,
    srcFiles := [("Widget.tsx", "import * as React from x;\nbody")],
    pkgJsonExists := false }

/-- The diagnostic "Cannot find module 'foo'. cannot find name 'react'",
which matches both the missing-dependency branch and the React branch. -/
def errModuleAndReact : String :=
  "Cannot find module " ++ apos ++ "foo" ++ apos ++ ". " ++ cannotFindNameReact

/- ===================================================================
   Helper lemmas.
   =================================================================== -/

theorem find?_updateFirst {α : Type} (pr : α → Bool) (f : α → α)
    (hf : ∀ x, pr x = true → pr (f x) = true) :
    ∀ (l : List α) (p : α), l.find? pr = some p →
      (updateFirst pr f l).find? pr = some (f p) := by
  intro l
  induction l with
  | nil => intro p h; simp [List.find?] at h
  | cons x xs ih =>
    intro p h
    by_cases hx : pr x = true
    · rw [List.find?_cons_of_pos _ hx] at h
      injection h with h'
      subst h'
      rw [updateFirst, if_pos hx, List.find?_cons_of_pos _ (hf x hx)]
    · rw [List.find?_cons_of_neg _ hx] at h
      rw [updateFirst, if_neg hx, List.find?_cons_of_neg _ hx]
      exact ih p h

/- ===================================================================
   Claim theorems.
   =================================================================== -/

/-- Claim C2: for a stored pattern with confidence in [0.1, 1],
recordFixUsage(id, true) sets confidence to min(1, c + 0.05) and increments
successCount; recordFixUsage(id, false) sets it to max(0.1, c - 0.1) and
increments failureCount; iterated successes never decrease confidence nor
push it above 1, iterated failures never increase it nor push it below 0.1,
and one update of either kind keeps confidence in [0.1, 1]. -/
theorem c2_recordOutcome_confidence (store : List ErrorFixPattern)
    (pid : String) (now : Nat) (p : ErrorFixPattern)
    (hfind : store.find? (fun q => q.id == pid) = some p)
    (hlo : (0.1 : ℚ) ≤ p.confidence) (hhi : p.confidence ≤ 1) :
    ((recordFixUsage store pid true now).find? (fun q => q.id == pid)
        = some (nudge true now p)
      ∧ (recordFixUsage store pid false now).find? (fun q => q.id == pid)
        = some (nudge false now p))
    ∧ ((nudge true now p).confidence = min 1 (p.confidence + 0.05)
      ∧ (nudge true now p).successCount = p.successCount + 1)
    ∧ ((nudge false now p).confidence = max 0.1 (p.confidence - 0.1)
      ∧ (nudge false now p).failureCount = p.failureCount + 1)
    ∧ (∀ n : Nat, p.confidence ≤ ((nudge true now)^[n] p).confidence
      ∧ ((nudge true now)^[n] p).confidence ≤ 1)
    ∧ (∀ n : Nat, ((nudge false now)^[n] p).confidence ≤ p.confidence
      ∧ (0.1 : ℚ) ≤ ((nudge false now)^[n] p).confidence)
    ∧ (∀ s : Bool, (0.1 : ℚ) ≤ (nudge s now p).confidence
      ∧ (nudge s now p).confidence ≤ 1) := by
  have hid : ∀ (s : Bool) (q : ErrorFixPattern),
      (fun r : ErrorFixPattern => r.id == pid) q = true →
      (fun r : ErrorFixPattern => r.id == pid) (nudge s now q) = true := by
    intro s q hq
    cases s <;> simpa [nudge] using hq
  refine ⟨⟨find?_updateFirst _ _ (hid true) store p hfind,
           find?_updateFirst _ _ (hid false) store p hfind⟩,
          ⟨rfl, rfl⟩, ⟨rfl, rfl⟩, ?_, ?_, ?_⟩
  · intro n
    induction n with
    | zero => exact ⟨le_refl _, hhi⟩
    | succ k ih =>
      rw [Function.iterate_succ_apply']
      have hc : (nudge true now ((nudge true now)^[k] p)).confidence
          = min 1 (((nudge true now)^[k] p).confidence + 0.05) := rfl
      exact ⟨le_trans ih.1 (by rw [hc]; exact le_min ih.2 (by linarith [ih.1])),
             by rw [hc]; exact min_le_left _ _⟩
  · intro n
    induction n with
    | zero => exact ⟨le_refl _, hlo⟩
    | succ k ih =>
      rw [Function.iterate_succ_apply']
      have hc : (nudge false now ((nudge false now)^[k] p)).confidence
          = max 0.1 (((nudge false now)^[k] p).confidence - 0.1) := rfl
      exact ⟨le_trans (by rw [hc]; exact max_le (by linarith [ih.2]) (by linarith)) ih.1,
             by rw [hc]; exact le_max_left _ _⟩
  · intro s
    cases s
    · exact ⟨le_max_left _ _, max_le (by norm_num) (by linarith)⟩
    · exact ⟨le_min (by norm_num) (by linarith), min_le_left _ _⟩

theorem c2_recordOutcome_confidence_witness :
    (((recordFixUsage [patBoom] "p1" true 5).find? (fun q => q.id == "p1")
        = some (nudge true 5 patBoom)
      ∧ (recordFixUsage [patBoom] "p1" false 5).find? (fun q => q.id == "p1")
        = some (nudge false 5 patBoom))
    ∧ ((nudge true 5 patBoom).confidence = min 1 (patBoom.confidence + 0.05)
      ∧ (nudge true 5 patBoom).successCount = patBoom.successCount + 1)
    ∧ ((nudge false 5 patBoom).confidence = max 0.1 (patBoom.confidence - 0.1)
      ∧ (nudge false 5 patBoom).failureCount = patBoom.failureCount + 1)
    ∧ (∀ n : Nat, patBoom.confidence ≤ ((nudge true 5)^[n] patBoom).confidence
      ∧ ((nudge true 5)^[n] patBoom).confidence ≤ 1)
    ∧ (∀ n : Nat, ((nudge false 5)^[n] patBoom).confidence ≤ patBoom.confidence
      ∧ (0.1 : ℚ) ≤ ((nudge false 5)^[n] patBoom).confidence)
    ∧ (∀ s : Bool, (0.1 : ℚ) ≤ (nudge s 5 patBoom).confidence
      ∧ (nudge s 5 patBoom).confidence ≤ 1)) :=
  c2_recordOutcome_confidence [patBoom] "p1" 5 patBoom (by rfl)
    (by norm_num [patBoom]) (by norm_num [patBoom])

/-- Claim C3: learn with success = false on a novel error (no identical
error signature, no keyword similarity above 0.7) leaves the stored
error-fix patterns unchanged: no pattern is added and the count is the
same. -/
theorem c3_no_failed_promotion (store : List ErrorFixPattern)
    (errorText fixDescription : String) (fixDetails : FixSpecPartial) (now : Nat)
    (hsig : ∀ p ∈ store, p.errorPattern ≠ errorText)
    (hsim : ∀ p ∈ store,
      similarity p.errorKeywords (extractKeywords errorText) ≤ 0.7) :
    learnErrorFix store errorText fixDescription fixDetails false now = store
    ∧ (learnErrorFix store errorText fixDescription fixDetails false now).length
        = store.length := by
  have hnone : store.find? (learnPred errorText (extractKeywords errorText)) = none := by
    apply List.find?_eq_none.mpr
    intro p hp
    simp only [learnPred, Bool.or_eq_true, beq_iff_eq, decide_eq_true_eq]
    rintro (h | h)
    · exact hsig p hp h
    · exact absurd h (not_lt.mpr (hsim p hp))
  have heq : learnErrorFix store errorText fixDescription fixDetails false now = store := by
    simp only [learnErrorFix]
    rw [hnone]
    rfl
  exact ⟨heq, by rw [heq]⟩

theorem c3_no_failed_promotion_witness :
    learnErrorFix [] "novel error" "desc"
        ⟨none, none, none, none, none⟩ false 7 = []
    ∧ (learnErrorFix [] "novel error" "desc"
        ⟨none, none, none, none, none⟩ false 7).length
      = ([] : List ErrorFixPattern).length :=
  c3_no_failed_promotion [] "novel error" "desc" ⟨none, none, none, none, none⟩ 7
    (fun p hp => absurd hp (List.not_mem_nil p))
    (fun p hp => absurd hp (List.not_mem_nil p))

theorem map_congr_simple {β γ : Type} (f g : β → γ) (l : List β)
    (h : ∀ x, f x = g x) : l.map f = l.map g := by
  induction l with
  | nil => rfl
  | cons a l ih => rw [List.map_cons, List.map_cons, h a, ih]

theorem fixerDescs_eq_range (env : LoopEnv) :
    ∀ (n a : Nat), fixerDescs env a n
      = (List.range n).map (fun i => (env.fixer (a + 1 + i)).description) := by
  intro n
  induction n with
  | zero => intro a; rfl
  | succ m ih =>
    intro a
    rw [fixerDescs, List.range_succ_eq_map, List.map_cons, ih (a + 1), List.map_map]
    congr 1
    exact map_congr_simple _ _ _
      (fun i => by rw [show a + 1 + 1 + i = a + 1 + (i + 1) from by omega]; rfl)

theorem execErrs_eq_range (env : LoopEnv) :
    ∀ (n a : Nat), execErrs env a n
      = (List.range n).map (fun i => (env.executor (a + 1 + i)).errors) := by
  intro n
  induction n with
  | zero => intro a; rfl
  | succ m ih =>
    intro a
    rw [execErrs, List.range_succ_eq_map, List.map_cons, ih (a + 1), List.map_map]
    congr 1
    exact map_congr_simple _ _ _
      (fun i => by rw [show a + 1 + 1 + i = a + 1 + (i + 1) from by omega]; rfl)

/- The exhaustion run of the while-loop: executor always failing, fix chain
always applying, never cancelled. -/
theorem executeAux_exhaust (env : LoopEnv)
    (hc : ∀ n, env.cancelRequested n = false)
    (he : ∀ n, (env.executor n).success = false)
    (hf : ∀ n, (env.fixer n).applied = true) :
    ∀ remaining, 1 ≤ remaining → ∀ attempt fixes ec fc dl,
      executeAux env remaining attempt fixes ec fc dl =
        ⟨exhaustedResult (attempt + remaining)
            (fixes ++ fixerDescs env attempt (remaining - 1)),
          ec + remaining, fc + (remaining - 1),
          dl ++ execErrs env attempt remaining⟩ := by
  intro remaining
  induction remaining with
  | zero => intro h; exact absurd h (by omega)
  | succ r ih =>
    intro _ attempt fixes ec fc dl
    cases r with
    | zero =>
      rw [executeAux]
      simp [hc, he, fixerDescs, execErrs, exhaustedResult]
    | succ r' =>
      have hstep : executeAux env (r' + 1 + 1) attempt fixes ec fc dl
          = executeAux env (r' + 1) (attempt + 1)
              (fixes ++ [(env.fixer (attempt + 1)).description]) (ec + 1) (fc + 1)
              (dl ++ [(env.executor (attempt + 1)).errors]) := by
        rw [executeAux]
        simp [hc, he, hf]
      rw [hstep, ih (by omega)]
      rw [show attempt + 1 + (r' + 1) = attempt + (r' + 1 + 1) from by omega,
          show ec + 1 + (r' + 1) = ec + (r' + 1 + 1) from by omega,
          show fc + 1 + (r' + 1 - 1) = fc + (r' + 1 + 1 - 1) from by omega]
      simp [fixerDescs, execErrs, List.append_assoc]

/-- Claim C5: with maxAttempts = N >= 1, an executor that fails every
attempt and a fix chain that applies a fix at every consultation (never
cancelled), execute invokes the executor exactly N times and returns a
failure whose attempts field is N. -/
theorem c5_bounded_retries (env : LoopEnv) (N : Nat) (hN : 1 ≤ N)
    (hc : ∀ n, env.cancelRequested n = false)
    (he : ∀ n, (env.executor n).success = false)
    (hf : ∀ n, (env.fixer n).applied = true) :
    (execute env (some N)).execCalls = N
    ∧ (execute env (some N)).result.success = false
    ∧ (execute env (some N)).result.attempts = N := by
  have hmax : effectiveMaxAttempts (some N) = N := by
    rw [effectiveMaxAttempts, if_neg (show ¬ N = 0 from by omega)]
  rw [execute, hmax, executeAux_exhaust env hc he hf N hN 0 [] 0 0 []]
  exact ⟨by simp, rfl, by simp [exhaustedResult]⟩

theorem c5_bounded_retries_witness :
    (execute envAlwaysFail (some 2)).execCalls = 2
    ∧ (execute envAlwaysFail (some 2)).result.success = false
    ∧ (execute envAlwaysFail (some 2)).result.attempts = 2 :=
  c5_bounded_retries envAlwaysFail 2 (by omega)
    (fun _ => rfl) (fun _ => rfl) (fun _ => rfl)

/-- Claim C9: a falsy maxAttempts option (absent, or 0) makes the loop use
the default bound 3, so a caller passing maxAttempts = 0 still gets 3
executor invocations (here: with an always-failing executor and an
always-applying fix chain) instead of none. -/
theorem c9_default_maxAttempts (env : LoopEnv)
    (hc : ∀ n, env.cancelRequested n = false)
    (he : ∀ n, (env.executor n).success = false)
    (hf : ∀ n, (env.fixer n).applied = true) :
    effectiveMaxAttempts none = 3
    ∧ effectiveMaxAttempts (some 0) = 3
    ∧ (execute env (some 0)).execCalls = 3
    ∧ (execute env (some 0)).result.attempts = 3 := by
  have hrun : execute env (some 0)
      = ⟨exhaustedResult (0 + 3) ([] ++ fixerDescs env 0 (3 - 1)), 0 + 3,
          0 + (3 - 1), [] ++ execErrs env 0 3⟩ := by
    rw [execute, show effectiveMaxAttempts (some 0) = 3 from rfl]
    exact executeAux_exhaust env hc he hf 3 (by omega) 0 [] 0 0 []
  exact ⟨rfl, rfl, by rw [hrun], by rw [hrun]; simp [exhaustedResult]⟩

theorem c9_default_maxAttempts_witness :
    effectiveMaxAttempts none = 3
    ∧ effectiveMaxAttempts (some 0) = 3
    ∧ (execute envAlwaysFail (some 0)).execCalls = 3
    ∧ (execute envAlwaysFail (some 0)).result.attempts = 3 :=
  c9_default_maxAttempts envAlwaysFail
    (fun _ => rfl) (fun _ => rfl) (fun _ => rfl)

/-- Claim C1 counterexample: with maxAttempts = 1 and an executor failing
with diagnostic "diag-0", the exhausted run's returned result does not
contain the raw diagnostic — its errors field is only the summary line;
the diagnostic only reaches the progress stream (diagLog). -/
theorem c1_result_lacks_diagnostics :
    (execute envAlwaysFail (some 1)).result.errors
        = ["Build failed after 1 attempts"]
    ∧ "diag-0" ∉ (execute envAlwaysFail (some 1)).result.errors
    ∧ (execute envAlwaysFail (some 1)).diagLog = [["diag-0"]]
    ∧ (execute envAlwaysFail (some 1)).result.attempts = 1 := by
  refine ⟨rfl, by decide, rfl, rfl⟩

/-- Claim C1 (amended): on exhausting maxAttempts = N without a successful
build, the returned result contains the attempt count N and the ordered
list of the fix descriptions of every fix tried (attempts 1..N-1, whether
or not they led to success); the raw diagnostic text of every failed
attempt is emitted through the progress callback (diagLog), but the
returned result's errors field holds only the single summary line, not
the diagnostics. -/
theorem c1_exhaustion_report (env : LoopEnv) (N : Nat) (hN : 1 ≤ N)
    (hc : ∀ n, env.cancelRequested n = false)
    (he : ∀ n, (env.executor n).success = false)
    (hf : ∀ n, (env.fixer n).applied = true) :
    (execute env (some N)).result.attempts = N
    ∧ (execute env (some N)).result.success = false
    ∧ (execute env (some N)).result.fixesApplied
        = (List.range (N - 1)).map (fun i => (env.fixer (i + 1)).description)
    ∧ (execute env (some N)).diagLog
        = (List.range N).map (fun i => (env.executor (i + 1)).errors)
    ∧ (execute env (some N)).result.errors
        = ["Build failed after " ++ toString N ++ " attempts"] := by
  have hmax : effectiveMaxAttempts (some N) = N := by
    rw [effectiveMaxAttempts, if_neg (show ¬ N = 0 from by omega)]
  have hfix : fixerDescs env 0 (N - 1)
      = (List.range (N - 1)).map (fun i => (env.fixer (i + 1)).description) := by
    rw [fixerDescs_eq_range]
    exact map_congr_simple _ _ _
      (fun i => by rw [show 0 + 1 + i = i + 1 from by omega])
  have hdiag : execErrs env 0 N
      = (List.range N).map (fun i => (env.executor (i + 1)).errors) := by
    rw [execErrs_eq_range]
    exact map_congr_simple _ _ _
      (fun i => by rw [show 0 + 1 + i = i + 1 from by omega])
  rw [execute, hmax, executeAux_exhaust env hc he hf N hN 0 [] 0 0 []]
  refine ⟨by simp [exhaustedResult], rfl, ?_, ?_, by simp [exhaustedResult]⟩
  · show [] ++ fixerDescs env 0 (N - 1) = _
    rw [List.nil_append, hfix]
  · show [] ++ execErrs env 0 N = _
    rw [List.nil_append, hdiag]

theorem c1_exhaustion_report_witness :
    (execute envAlwaysFail (some 2)).result.attempts = 2
    ∧ (execute envAlwaysFail (some 2)).result.success = false
    ∧ (execute envAlwaysFail (some 2)).result.fixesApplied
        = (List.range 1).map (fun i => (envAlwaysFail.fixer (i + 1)).description)
    ∧ (execute envAlwaysFail (some 2)).diagLog
        = (List.range 2).map (fun i => (envAlwaysFail.executor (i + 1)).errors)
    ∧ (execute envAlwaysFail (some 2)).result.errors
        = ["Build failed after " ++ toString 2 ++ " attempts"] :=
  c1_exhaustion_report envAlwaysFail 2 (by omega)
    (fun _ => rfl) (fun _ => rfl) (fun _ => rfl)

/- The cancellation analysis of the while-loop: once the token reports
cancellation at attempt k, the loop can never invoke the executor or the
fix chain at or beyond attempt k, and a run reaching attempt k returns the
cancelled outcome untouched. -/
theorem executeAux_cancel (env : LoopEnv) (k : Nat)
    (hk : env.cancelRequested k = true) :
    ∀ remaining attempt fixes ec fc dl,
      attempt < k → ec = attempt → fc = attempt → fixes.length = attempt →
      cancelSpec k (executeAux env remaining attempt fixes ec fc dl) := by
  intro remaining
  induction remaining with
  | zero =>
    intro attempt fixes ec fc dl ha hec hfc hlen
    rw [executeAux]
    refine ⟨?_, ?_, ?_, ?_⟩
    · show ec ≤ k - 1; omega
    · show fc ≤ k - 1; omega
    · show attempt ≤ k; omega
    · intro h
      have h' : attempt = k := h
      exact absurd h' (by omega)
  | succ r ih =>
    intro attempt fixes ec fc dl ha hec hfc hlen
    rw [executeAux]
    by_cases hcan : env.cancelRequested (attempt + 1) = true
    · rw [if_pos hcan]
      refine ⟨?_, ?_, ?_, ?_⟩
      · show ec ≤ k - 1; omega
      · show fc ≤ k - 1; omega
      · show attempt + 1 ≤ k; omega
      · intro h
        have h' : attempt + 1 = k := h
        exact ⟨rfl, rfl, show ec = k - 1 by omega, show fc = k - 1 by omega,
          show fixes.length = k - 1 by omega⟩
    · rw [if_neg hcan]
      have hne : attempt + 1 ≠ k := fun h => hcan (h ▸ hk)
      have ha1 : attempt + 1 < k := by omega
      by_cases hsucc : (env.executor (attempt + 1)).success = true
      · rw [if_pos hsucc]
        refine ⟨?_, ?_, ?_, ?_⟩
        · show ec + 1 ≤ k - 1; omega
        · show fc ≤ k - 1; omega
        · show attempt + 1 ≤ k; omega
        · intro h
          have h' : attempt + 1 = k := h
          exact absurd h' hne
      · rw [if_neg hsucc]
        by_cases hr : 0 < r
        · rw [if_pos hr]
          by_cases happ : (env.fixer (attempt + 1)).applied = true
          · rw [if_pos happ]
            exact ih (attempt + 1) (fixes ++ [(env.fixer (attempt + 1)).description])
              (ec + 1) (fc + 1) (dl ++ [(env.executor (attempt + 1)).errors])
              ha1 (by omega) (by omega) (by simp [hlen])
          · rw [if_neg happ]
            refine ⟨?_, ?_, ?_, ?_⟩
            · show ec + 1 ≤ k - 1; omega
            · show fc + 1 ≤ k - 1; omega
            · show attempt + 1 ≤ k; omega
            · intro h
              have h' : attempt + 1 = k := h
              exact absurd h' hne
        · rw [if_neg hr]
          refine ⟨?_, ?_, ?_, ?_⟩
          · show ec + 1 ≤ k - 1; omega
          · show fc ≤ k - 1; omega
          · show attempt + 1 ≤ k; omega
          · intro h
            have h' : attempt + 1 = k := h
            exact absurd h' hne

/-- Claim C7: if the (monotone) cancellation token reports cancellation at
attempt k >= 1, then execute never invokes the executor or any fix
strategy at or after attempt k, never starts an attempt beyond k, and a
run reaching attempt k returns the cancelled outcome immediately: success
false, errors ["Operation cancelled"], exactly k-1 executor invocations
and fix consultations, and no fix recorded at attempt k. -/
theorem c7_cancellation (env : LoopEnv) (k : Nat) (maxOpt : Option Nat)
    (hmono : ∀ i j, i ≤ j → env.cancelRequested i = true →
      env.cancelRequested j = true)
    (hk1 : 1 ≤ k) (hk : env.cancelRequested k = true) :
    cancelSpec k (execute env maxOpt) :=
  executeAux_cancel env k hk (effectiveMaxAttempts maxOpt) 0 [] 0 0 []
    (by omega) rfl rfl rfl

theorem c7_cancellation_witness : cancelSpec 2 (execute envCancelAt2 (some 5)) :=
  c7_cancellation envCancelAt2 2 (some 5)
    (fun i j hij hi => by
      simp only [envCancelAt2, decide_eq_true_eq] at hi ⊢
      omega)
    (by omega) (by simp [envCancelAt2])

/- Stable insertion sort by score: permutation, sortedness, stability. -/

theorem insertScored_perm {α : Type} (x : α × ℚ) (l : List (α × ℚ)) :
    List.Perm (insertScored x l) (x :: l) := by
  induction l with
  | nil => exact List.Perm.refl _
  | cons y ys ih =>
    rw [insertScored]
    by_cases h : y.2 ≤ x.2
    · rw [if_pos h]
    · rw [if_neg h]
      exact (ih.cons y).trans (List.Perm.swap x y ys)

theorem sortScoredDesc_perm {α : Type} (l : List (α × ℚ)) :
    List.Perm (sortScoredDesc l) l := by
  induction l with
  | nil => exact List.Perm.refl _
  | cons x xs ih =>
    rw [sortScoredDesc]
    exact (insertScored_perm x (sortScoredDesc xs)).trans (ih.cons x)

theorem insertScored_pairwise {α : Type} (x : α × ℚ) (l : List (α × ℚ))
    (h : l.Pairwise (fun u v => v.2 ≤ u.2)) :
    (insertScored x l).Pairwise (fun u v => v.2 ≤ u.2) := by
  induction l with
  | nil => simp [insertScored]
  | cons y ys ih =>
    rw [insertScored]
    rcases List.pairwise_cons.mp h with ⟨hy, hys⟩
    by_cases hc : y.2 ≤ x.2
    · rw [if_pos hc]
      refine List.pairwise_cons.mpr ⟨?_, h⟩
      intro z hz
      rcases List.mem_cons.mp hz with rfl | hz'
      · exact hc
      · exact le_trans (hy z hz') hc
    · rw [if_neg hc]
      refine List.pairwise_cons.mpr ⟨?_, ih hys⟩
      intro z hz
      have hz' := (insertScored_perm x ys).mem_iff.mp hz
      rcases List.mem_cons.mp hz' with rfl | hz''
      · exact le_of_lt (not_le.mp hc)
      · exact hy z hz''

theorem sortScoredDesc_pairwise {α : Type} (l : List (α × ℚ)) :
    (sortScoredDesc l).Pairwise (fun u v => v.2 ≤ u.2) := by
  induction l with
  | nil => simp [sortScoredDesc]
  | cons x xs ih =>
    rw [sortScoredDesc]
    exact insertScored_pairwise x _ ih

theorem insertScored_filter_key {α : Type} (s : ℚ) (x : α × ℚ)
    (l : List (α × ℚ)) :
    (insertScored x l).filter (fun y => decide (y.2 = s))
      = if x.2 = s then x :: l.filter (fun y => decide (y.2 = s))
        else l.filter (fun y => decide (y.2 = s)) := by
  induction l with
  | nil =>
    rw [insertScored]
    by_cases hx : x.2 = s
    · rw [if_pos hx]; simp [List.filter, hx]
    · rw [if_neg hx]; simp [List.filter, hx]
  | cons y ys ih =>
    rw [insertScored]
    by_cases hc : y.2 ≤ x.2
    · rw [if_pos hc]
      by_cases hx : x.2 = s
      · rw [if_pos hx]; simp [List.filter_cons, hx]
      · rw [if_neg hx]; simp [List.filter_cons, hx]
    · rw [if_neg hc]
      by_cases hx : x.2 = s
      · have hy : ¬ y.2 = s := fun h => hc (le_of_eq (by rw [h, hx]))
        rw [if_pos hx]
        simp [List.filter_cons, hy, hx, ih]
      · rw [if_neg hx]
        simp [List.filter_cons, ih, hx]

theorem sortScoredDesc_filter_key {α : Type} (s : ℚ) (l : List (α × ℚ)) :
    (sortScoredDesc l).filter (fun y => decide (y.2 = s))
      = l.filter (fun y => decide (y.2 = s)) := by
  induction l with
  | nil => rfl
  | cons x xs ih =>
    rw [sortScoredDesc, insertScored_filter_key, List.filter_cons]
    by_cases hx : x.2 = s
    · rw [if_pos hx, ih]; simp [hx]
    · rw [if_neg hx, ih]; simp [hx]

theorem filter_of_map {β γ : Type} (f : β → γ) (p : γ → Bool) (l : List β) :
    (l.map f).filter p = (l.filter (fun a => p (f a))).map f := by
  induction l with
  | nil => rfl
  | cons a l ih => by_cases hp : p (f a) = true <;> simp [List.filter_cons, hp, ih]

/-- Claim C4: for every diagnostic text and store contents (with the data
model's invariant that stored confidences are positive),
getMatchingErrorFixes returns exactly the patterns with nonzero score,
sorted descending by final score, where the final score is the raw sum
(10 for exact substring containment of the pattern's error signature in
the diagnostic text, plus 2 per case-insensitive keyword occurrence)
multiplied by confidence and by (1 + successCount/10). -/
theorem c4_matchFixes_scoring (errorText : String)
    (patterns : List ErrorFixPattern)
    (hconf : ∀ p ∈ patterns, 0 < p.confidence) :
    List.Perm (getMatchingErrorFixes errorText patterns)
        (patterns.filter (fun p => decide (finalScore errorText p ≠ 0)))
    ∧ List.Pairwise
        (fun p q => finalScore errorText q ≤ finalScore errorText p)
        (getMatchingErrorFixes errorText patterns)
    ∧ ∀ p ∈ patterns, finalScore errorText p =
        ((if jsIncludes errorText p.errorPattern then (10 : ℚ) else 0)
          + 2 * (p.errorKeywords.countP
              (fun k => jsIncludes (jsToLower errorText) (jsToLower k)) : ℚ))
        * p.confidence * (1 + (p.successCount : ℚ) / 10) := by
  have hposIff : ∀ p ∈ patterns,
      (0 < rawScore errorText p ↔ finalScore errorText p ≠ 0) := by
    intro p hp
    have h0 : (0 : ℚ) ≤ rawScore errorText p := by
      rw [rawScore]
      apply add_nonneg
      · split <;> norm_num
      · positivity
    have hpos2 : (0 : ℚ) < 1 + (p.successCount : ℚ) / 10 := by positivity
    constructor
    · intro hraw
      exact ne_of_gt (by
        rw [finalScore]
        exact mul_pos (mul_pos hraw (hconf p hp)) hpos2)
    · intro hne
      rcases lt_or_eq_of_le h0 with h | h
      · exact h
      · exact absurd (by rw [finalScore, ← h]; ring) hne
  have hfilter : patterns.filter (fun p => decide (0 < rawScore errorText p))
      = patterns.filter (fun p => decide (finalScore errorText p ≠ 0)) :=
    List.filter_congr (fun p hp => decide_eq_decide.mpr (hposIff p hp))
  refine ⟨?_, ?_, ?_⟩
  · simp only [getMatchingErrorFixes]
    refine ((sortScoredDesc_perm _).map Prod.fst).trans ?_
    rw [List.map_map,
      map_congr_simple (Prod.fst ∘ fun p => (p, finalScore errorText p)) id _
        (fun x => rfl),
      List.map_id, hfilter]
  · simp only [getMatchingErrorFixes]
    rw [List.pairwise_map]
    have hmem : ∀ w ∈ sortScoredDesc
        ((patterns.filter (fun p => decide (0 < rawScore errorText p))).map
          (fun p => (p, finalScore errorText p))),
        w.2 = finalScore errorText w.1 := by
      intro w hw
      have hw' := (sortScoredDesc_perm _).mem_iff.mp hw
      rcases List.mem_map.mp hw' with ⟨p, _, rfl⟩
      rfl
    exact (sortScoredDesc_pairwise _).imp_of_mem (fun {u} {v} hu hv huv => by
      rw [← hmem u hu, ← hmem v hv]
      exact huv)
  · intro p _
    rfl

theorem c4_matchFixes_scoring_witness :
    List.Perm (getMatchingErrorFixes "boom bang" [patScore])
        ([patScore].filter (fun p => decide (finalScore "boom bang" p ≠ 0)))
    ∧ List.Pairwise
        (fun p q => finalScore "boom bang" q ≤ finalScore "boom bang" p)
        (getMatchingErrorFixes "boom bang" [patScore])
    ∧ ∀ p ∈ [patScore], finalScore "boom bang" p =
        ((if jsIncludes "boom bang" p.errorPattern then (10 : ℚ) else 0)
          + 2 * (p.errorKeywords.countP
              (fun k => jsIncludes (jsToLower "boom bang") (jsToLower k)) : ℚ))
        * p.confidence * (1 + (p.successCount : ℚ) / 10) :=
  c4_matchFixes_scoring "boom bang" [patScore]
    (by
      intro p hp
      rw [List.mem_singleton] at hp
      subst hp
      norm_num [patScore])

/-- Claim C8: the descending sort of getMatchingErrorFixes is stable:
for every score value s, the subsequence of returned patterns with final
score s equals — element for element, in order — the subsequence of the
store (restricted to positive raw score) with final score s, so patterns
with identical final scores appear in their original insertion order. -/
theorem c8_stable_ranking (errorText : String)
    (patterns : List ErrorFixPattern) (s : ℚ) :
    (getMatchingErrorFixes errorText patterns).filter
        (fun p => decide (finalScore errorText p = s))
      = (patterns.filter (fun p => decide (0 < rawScore errorText p))).filter
          (fun p => decide (finalScore errorText p = s)) := by
  simp only [getMatchingErrorFixes]
  rw [filter_of_map]
  have hcong : (sortScoredDesc
        ((patterns.filter (fun p => decide (0 < rawScore errorText p))).map
          (fun p => (p, finalScore errorText p)))).filter
        (fun a => decide (finalScore errorText a.1 = s))
      = (sortScoredDesc
        ((patterns.filter (fun p => decide (0 < rawScore errorText p))).map
          (fun p => (p, finalScore errorText p)))).filter
        (fun a => decide (a.2 = s)) := by
    apply List.filter_congr
    intro u hu
    have hu' := (sortScoredDesc_perm _).mem_iff.mp hu
    rcases List.mem_map.mp hu' with ⟨p, _, rfl⟩
    rfl
  rw [show (fun a : ErrorFixPattern × ℚ =>
        (fun p => decide (finalScore errorText p = s)) a.1)
      = (fun a : ErrorFixPattern × ℚ => decide (finalScore errorText a.1 = s))
      from rfl,
    hcong, sortScoredDesc_filter_key, filter_of_map, List.map_map,
    map_congr_simple (Prod.fst ∘ fun p => (p, finalScore errorText p)) id _
      (fun x => rfl),
    List.map_id]

/- Occurrence counting: a needle that is not an infix occurs zero times,
and prepending the needle to a needle-free text makes it occur once. -/

theorem countOccAux_eq_zero (n : List Char) :
    ∀ (fuel : Nat) (h : List Char), ¬ (n <:+: h) →
      countOccAux n fuel h = 0 := by
  intro fuel
  induction fuel with
  | zero => intro h _; rfl
  | succ f ih =>
    intro h hni
    cases h with
    | nil => rfl
    | cons c rest =>
      have hcond : ¬ (n ≠ [] ∧ n.isPrefixOf (c :: rest) = true) := by
        rintro ⟨_, hpre⟩
        rw [List.isPrefixOf_iff_prefix] at hpre
        exact hni hpre.isInfix
      rw [countOccAux, if_neg hcond]
      exact ih rest (fun hinf => hni (by
        obtain ⟨s, t, hst⟩ := hinf
        exact ⟨c :: s, t, by simp [← hst]⟩))

theorem countOccAux_prepend (n c : List Char) (hne : n ≠ [])
    (hni : ¬ (n <:+: c)) :
    ∀ fuel, 1 ≤ fuel → countOccAux n fuel (n ++ c) = 1 := by
  intro fuel hf
  obtain ⟨f, rfl⟩ : ∃ f, fuel = f + 1 := ⟨fuel - 1, by omega⟩
  obtain ⟨a, n', rfl⟩ : ∃ a n', n = a :: n' := by
    cases n with
    | nil => exact absurd rfl hne
    | cons a n' => exact ⟨a, n', rfl⟩
  rw [List.cons_append, countOccAux,
    if_pos ⟨hne, List.isPrefixOf_iff_prefix.mpr
      (by rw [← List.cons_append]; exact List.prefix_append _ _)⟩]
  rw [show (a :: n').length - 1 = n'.length from by simp]
  rw [List.drop_left, countOccAux_eq_zero _ f c hni]

/-- Claim C6 counterexample: the prepend-if-absent fix with replace text
"X" applied twice to a file already containing "XX" leaves it at "XX":
the first application does not prepend (the content check finds the text
already present), and the replace text appears twice — not exactly
once — in the final file. -/
theorem c6_prepend_counterexample :
    applyFileEditContent "" "X" "XX" = "XX"
    ∧ applyFileEditContent "" "X" (applyFileEditContent "" "X" "XX") = "XX"
    ∧ countOcc (applyFileEditContent "" "X"
        (applyFileEditContent "" "X" "XX")) "X" = 2
    ∧ applyFileEditContent "" "X" "XX" ≠ "X" ++ "XX" := by
  decide

/-- Claim C6 (amended): applying a nucleus file-edit fix with empty search
text and non-empty replace text twice to a file that does not already
contain the replace text results in the replace text appearing exactly
once: the first application prepends it, and the second application
detects the text is already present and leaves the file unchanged
(idempotence of prepend-if-absent).  (If the file already contains the
text, both applications are no-ops and the occurrence count is whatever
it already was.) -/
theorem c6_prepend_idempotent (r content : String) (hr : r ≠ "")
    (habs : jsIncludes content r = false) :
    applyFileEditContent "" r content = r ++ content
    ∧ applyFileEditContent "" r (applyFileEditContent "" r content)
        = applyFileEditContent "" r content
    ∧ countOcc (applyFileEditContent "" r content) r = 1 := by
  have hnotinf : ¬ (r.data <:+: content.data) := of_decide_eq_false habs
  have h1 : applyFileEditContent "" r content = r ++ content := by
    rw [applyFileEditContent, if_pos ⟨rfl, hr⟩, if_neg (by simp [habs])]
  have hpre : jsIncludes (r ++ content) r = true := by
    apply decide_eq_true
    have hp : r.data <+: (r ++ content).data := by
      rw [show (r ++ content).data = r.data ++ content.data from rfl]
      exact List.prefix_append _ _
    exact hp.isInfix
  have h2 : applyFileEditContent "" r (r ++ content) = r ++ content := by
    rw [applyFileEditContent, if_pos ⟨rfl, hr⟩, if_pos hpre]
  have hdne : r.data ≠ [] := fun hd => hr (String.ext hd)
  have h3 : countOcc (r ++ content) r = 1 := by
    rw [countOcc]
    apply countOccAux_prepend r.data content.data hdne hnotinf
    show 1 ≤ (r.data ++ content.data).length
    rw [List.length_append]
    have := List.length_pos.mpr hdne
    omega
  exact ⟨h1, by rw [h1, h2], by rw [h1]; exact h3⟩

theorem c6_prepend_idempotent_witness :
    applyFileEditContent "" "A" "bc" = "A" ++ "bc"
    ∧ applyFileEditContent "" "A" (applyFileEditContent "" "A" "bc")
        = applyFileEditContent "" "A" "bc"
    ∧ countOcc (applyFileEditContent "" "A" "bc") "A" = 1 :=
  c6_prepend_idempotent "A" "bc" (by decide) (by decide)

/- The React branch of tryPatternFix modifies nothing when every .tsx file
already imports React. -/
theorem addReactImports_eq_self :
    ∀ (files : List (String × String)),
      (∀ f ∈ files, jsEndsWith f.1 ".tsx" = true →
        jsIncludes f.2 "import React" = true
        ∨ jsIncludes f.2 "import * as React" = true) →
      addReactImports files = files := by
  intro files
  induction files with
  | nil => intro _; rfl
  | cons f fs ih =>
    intro h
    have hone : (if (jsEndsWith f.1 ".tsx" && !(jsIncludes f.2 "import React")
          && !(jsIncludes f.2 "import * as React")) = true
        then (f.1, reactImportLine ++ f.2) else f) = f := by
      rcases Bool.eq_false_or_eq_true (jsEndsWith f.1 ".tsx") with h1 | h1
      · rcases h f (List.mem_cons_self f fs) h1 with h2 | h2 <;> simp [h2]
      · simp [h1]
    have hrest := ih (fun g hg => h g (List.mem_cons_of_mem f hg))
    rw [addReactImports] at hrest ⊢
    rw [List.map_cons, hrest]
    simp only [hone]

/-- Claim C10 counterexample: the diagnostic "Cannot find module 'foo'.
cannot find name 'react'" contains "cannot find name 'react'" and the src
directory exists, yet tryPatternFix (with npm install succeeding) reports
'Installed missing module: foo' from the earlier missing-dependency
branch, not 'Added missing React imports'. -/
theorem c10_module_branch_preempts :
    jsIncludes (jsToLower errModuleAndReact) cannotFindNameReact = true
    ∧ envNpmOk.srcExists = true
    ∧ (tryPatternFix errModuleAndReact envNpmOk).outcome.applied = true
    ∧ (tryPatternFix errModuleAndReact envNpmOk).outcome.description
        = "Installed missing module: foo"
    ∧ (tryPatternFix errModuleAndReact envNpmOk).outcome.description
        ≠ "Added missing React imports" := by
  decide

/-- Claim C10 (amended): whenever the diagnostic text contains "'react'
must be in scope" or "cannot find name 'react'" (case-insensitively), the
widget's src subdirectory exists, and the earlier missing-dependency
branch did not return a fix, the heuristic strategy reports
applied = true with description 'Added missing React imports' even when
it modified no file: when every .tsx file already contains a React import
(in particular when there are no .tsx files at all), the src files are
unchanged, yet the fix still counts as applied. -/
theorem c10_react_fix_reported (errorText : String) (env : PatternFixEnv)
    (hmod : moduleFix errorText env.npmInstallOk = none)
    (hreact : jsIncludes (jsToLower errorText) reactMustBeInScope = true
      ∨ jsIncludes (jsToLower errorText) cannotFindNameReact = true)
    (hsrc : env.srcExists = true) :
    (tryPatternFix errorText env).outcome
        = ⟨true, "Added missing React imports"⟩
    ∧ ((∀ f ∈ env.srcFiles, jsEndsWith f.1 ".tsx" = true →
          jsIncludes f.2 "import React" = true
          ∨ jsIncludes f.2 "import * as React" = true) →
        (tryPatternFix errorText env).srcFiles = env.srcFiles) := by
  have hrun : tryPatternFix errorText env
      = ⟨⟨true, "Added missing React imports"⟩,
          addReactImports env.srcFiles, false⟩ := by
    simp only [tryPatternFix, hmod]
    rcases hreact with h | h
    · simp [h, hsrc]
    · simp [h, hsrc]
  refine ⟨by rw [hrun], ?_⟩
  intro hall
  rw [hrun]
  exact addReactImports_eq_self env.srcFiles hall

theorem c10_react_fix_reported_witness :
    (tryPatternFix cannotFindNameReact envTsxWithReact).outcome
        = ⟨true, "Added missing React imports"⟩
    ∧ ((∀ f ∈ envTsxWithReact.srcFiles, jsEndsWith f.1 ".tsx" = true →
          jsIncludes f.2 "import React" = true
          ∨ jsIncludes f.2 "import * as React" = true) →
        (tryPatternFix cannotFindNameReact envTsxWithReact).srcFiles
          = envTsxWithReact.srcFiles) :=
  c10_react_fix_reported cannotFindNameReact envTsxWithReact
    (by decide) (Or.inr (by decide)) (by decide)
